import Mathlib

/-!
# Generation-loop control of `main.cpp`

A shallow embedding of `sigint_handler`, `detect_reverse_prompt`,
`read_user_input` and `run_model` from `src/main.cpp`.

Conventions of the embedding
* `gpt_vocab::id` and the `int` locals are `Int`; container sizes are `Nat`.
  The 32-bit width of the counters is not modelled.
* Logits (`float`) are abstracted to `Int` scores: the loop only stores the
  constant `0` into the vector and hands it to the sampler.
* The tokenizer, the evaluator and the sampler live outside `main.cpp`; they
  are fields of `Env`, over an arbitrary external state `σ` (model context
  and random generator).
* Standard input is the finite sequence of bytes still unread; reads past
  its end behave as end-of-file.
* Operations whose behaviour C++ leaves undefined return a `Fault`.
* ANSI colour escapes and the diagnostic stream are not modelled.
-/

namespace LlamaMain

/-! ## Basic types -/

/-- Token identifier, `gpt_vocab::id`. -/
abbrev Token := Int

/-- Score assigned by the evaluator to one vocabulary entry. -/
abbrev Logit := Int

/-- The constant `EOS_TOKEN_ID` (line 29). -/
def EOS_TOKEN_ID : Token := 2

/-- Signal number of the keyboard interrupt, from `signal.h`. -/
def SIGINT : Int := 2

/-- Newline byte. -/
def NL : Nat := 10

/-- Backslash byte. -/
def BACKSLASH : Nat := 92

/-- Size of `char buf[256]` in `read_user_input`. -/
def BUF_SIZE : Nat := 256

/-- Operations with undefined behaviour (or an uncaught exception). -/
inductive Fault where
  /-- a store into `buf` at an index outside `0..255` -/
  | buf_overflow (idx : Int)
  /-- `std::equal` dereferencing the reverse iterator of the window at `rend()` -/
  | read_before_begin
  /-- `last_n_tokens.erase(last_n_tokens.begin())` on an empty vector -/
  | erase_empty
  /-- `embd.back()` on an empty vector -/
  | back_empty
  /-- `embd_inp[input_consumed]` outside the vector -/
  | index_out_of_range
  /-- access to `logits` outside the vector -/
  | logits_out_of_range
  /-- `std::vector` constructed with a negative element count -/
  | bad_length
  /-- a bounded loop of the embedding used up its step budget -/
  | out_of_fuel
  deriving DecidableEq, Repr

/-! ## Interaction gate -/

/-- Result of running the signal handler. -/
inductive SigResult where
  /-- the handler returns; the flag has the given value -/
  | resumed (is_interacting : Bool)
  /-- the handler called `_exit` with the given status -/
  | exited (status : Int)
  deriving DecidableEq, Repr

/-- The handler `sigint_handler` (lines 46-54), as a function of the signal
number and of the current value of the global `is_interacting`. -/
def sigint_handler (signo : Int) (is_interacting : Bool) : SigResult :=
  if signo = SIGINT then
    if !is_interacting then
      SigResult.resumed true
    else
      SigResult.exited 130
  else
    SigResult.resumed is_interacting

/-- Successive deliveries of signals to the handler, with no other write to
the flag in between; delivery stops once the process has exited. -/
def deliver : List Int → Bool → SigResult
  | [], flag => SigResult.resumed flag
  | signo :: rest, flag =>
    match sigint_handler signo flag with
    | SigResult.resumed flag' => deliver rest flag'
    | SigResult.exited status => SigResult.exited status

/-! ## Reverse-prompt detector -/

/-- The three-iterator `std::equal(first1, last1, first2)`: walks the first
range, comparing with the second range element by element, and stops at the
first mismatch. The second range is not checked for its end. -/
def std_equal : List Token → List Token → Except Fault Bool
  | [], _ => Except.ok true
  | _ :: _, [] => Except.error Fault.read_before_begin
  | a :: as, b :: bs => if a = b then std_equal as bs else Except.ok false

/-- The function `detect_reverse_prompt` (lines 120-122). Both vectors are
walked from their last element backwards. -/
def detect_reverse_prompt (antiprompt_inp last_n_tokens : List Token) :
    Except Fault Bool :=
  if antiprompt_inp.length ≠ 0 then
    std_equal antiprompt_inp.reverse last_n_tokens.reverse
  else
    Except.ok false

/-! ## Reading user input -/

/-- What one `scanf` round of `read_user_input` leaves behind. -/
structure Scan where
  /-- contents of `buf` -/
  buf : List Nat
  /-- value of `n_read` -/
  n_read : Int
  /-- bytes of standard input still unread -/
  rest : List Nat
  deriving DecidableEq, Repr

/-- Lines 129-136: `buf` is zeroed, then `scanf("%255[^\n]%n%*c", buf, &n_read)`
stores at most 255 bytes up to the next newline, followed by a terminating
zero, sets `n_read` to their number and skips one more byte. When no byte
matches (empty line or end of input) the second `scanf("%*c")` skips one byte
and `n_read` is set to 0. -/
def scan_line (stdin : List Nat) : Scan :=
  let field := (stdin.takeWhile (fun b => b ≠ NL)).take 255
  if field.length = 0 then
    { buf := List.replicate BUF_SIZE 0, n_read := 0, rest := stdin.drop 1 }
  else
    { buf := field ++ List.replicate (BUF_SIZE - field.length) 0,
      n_read := field.length,
      rest := (stdin.drop field.length).drop 1 }

/-- The store `buf[i] = v` into the 256-byte array. -/
def buf_store (buf : List Nat) (i : Int) (v : Nat) : Except Fault (List Nat) :=
  if 0 ≤ i ∧ i < BUF_SIZE then
    Except.ok (buf.set i.toNat v)
  else
    Except.error (Fault.buf_overflow i)

/-- Test of line 139: `n_read > 0 && buf[n_read-1] == '\\'`. -/
def is_continuation (sc : Scan) : Bool :=
  decide (sc.n_read > 0) && decide (sc.buf[(sc.n_read - 1).toNat]? = some BACKSLASH)

/-- Lines 139-147: the two stores of the chosen branch. -/
def terminate_line (sc : Scan) : Except Fault (List Nat) :=
  if is_continuation sc then
    (buf_store sc.buf (sc.n_read - 1) NL).bind fun b => buf_store b sc.n_read 0
  else
    (buf_store sc.buf sc.n_read NL).bind fun b => buf_store b (sc.n_read + 1) 0

/-- The C string held by `buf`: the bytes before the first zero. -/
def c_string (buf : List Nat) : List Nat :=
  buf.takeWhile (fun b => b ≠ 0)

/-- Result of `read_user_input`: the returned count, the queue `embd_inp`
after the call and the bytes of standard input still unread. -/
structure ReadResult where
  total_tokens_read : Int
  embd_inp : List Token
  stdin : List Nat
  deriving DecidableEq, Repr

/-- The `while (another_line)` loop of `read_user_input` (lines 127-155);
`tokenize` is `llama_tokenize` with the vocabulary fixed. One unit of fuel
is one line read. -/
def read_lines (tokenize : List Nat → Bool → List Token) :
    Nat → List Nat → List Token → Int → Except Fault ReadResult
  | 0, _, _, _ => Except.error Fault.out_of_fuel
  | fuel + 1, stdin, embd_inp, total_tokens_read =>
    let sc := scan_line stdin
    match terminate_line sc with
    | Except.error f => Except.error f
    | Except.ok buf =>
      let line_inp := tokenize (c_string buf) false
      let embd_inp' := embd_inp ++ line_inp
      let total' := total_tokens_read + line_inp.length
      if is_continuation sc then
        read_lines tokenize fuel sc.rest embd_inp' total'
      else
        Except.ok { total_tokens_read := total', embd_inp := embd_inp', stdin := sc.rest }

/-- The function `read_user_input` (lines 124-157). Every continuation line
consumes at least one byte, so `stdin.length + 1` rounds always suffice. -/
def read_user_input (tokenize : List Nat → Bool → List Token)
    (stdin : List Nat) (embd_inp : List Token) : Except Fault ReadResult :=
  read_lines tokenize (stdin.length + 1) stdin embd_inp 0

/-! ## The generation loop -/

/-- The external collaborators of `run_model`, over an external state `σ`
holding the model context and the random generator.
* `llama_tokenize text add_bos` is the tokenizer with the vocabulary fixed;
* `llama_eval w n_past embd logits` returns the new external state, the
  success flag and the contents of `logits` after the call;
* `llama_sample_top_p_top_k w slice last_n_tokens` receives the last
  `n_vocab` logits and the history window and returns the sampled id. -/
structure Env (σ : Type) where
  llama_tokenize : List Nat → Bool → List Token
  llama_eval : σ → Int → List Token → List Logit → σ × Bool × List Logit
  llama_sample_top_p_top_k : σ → List Logit → List Token → σ × Token

/-- The fields of `gpt_params` and of `model.hparams` read by `run_model`. -/
structure Params where
  prompt : List Nat
  antiprompt : List Nat
  n_predict : Int
  n_batch : Int
  repeat_last_n : Int
  interactive : Bool
  interactive_start : Bool
  ignore_eos : Bool
  /-- `model.hparams.n_ctx` -/
  n_ctx : Int
  /-- `model.hparams.n_vocab` -/
  n_vocab : Int
  deriving DecidableEq, Repr

/-- What the loop does to its collaborators, in order of occurrence. -/
inductive Event where
  /-- `llama_eval` was called with this batch -/
  | fed (embd : List Token)
  /-- the sampler returned this id -/
  | sampled (id : Token)
  deriving DecidableEq, Repr

/-- The variables of `run_model`, the global `is_interacting`, the two
standard streams and the log of collaborator calls. -/
structure State (σ : Type) where
  world : σ
  stdin : List Nat
  stdout : List Token
  logits : List Logit
  embd_inp : List Token
  antiprompt_inp : List Token
  embd : List Token
  last_n_tokens : List Token
  n_past : Int
  remaining_tokens : Int
  input_consumed : Int
  input_noecho : Bool
  is_interacting : Bool
  events : List Event

/-- Why `run_model` stops inside an iteration without reaching its end. -/
inductive Stop where
  /-- `llama_eval` reported failure: `return 1` (line 208) -/
  | failed_to_predict
  /-- undefined behaviour -/
  | fault (f : Fault)
  deriving DecidableEq, Repr

/-- Comparison `size <= i` of a `size_t` with an `int`: the `int` is
converted to `size_t`, so a negative `i` exceeds every size. -/
def size_le_int (size : Nat) (i : Int) : Bool :=
  decide (i < 0) || decide ((size : Int) ≤ i)

/-- Comparison `size > i` of a `size_t` with an `int`. -/
def size_gt_int (size : Nat) (i : Int) : Bool :=
  !size_le_int size i

/-- The pair `last_n_tokens.erase(last_n_tokens.begin())`,
`last_n_tokens.push_back(id)` (lines 231-232 and 250-251). -/
def window_push (last_n_tokens : List Token) (id : Token) : Except Stop (List Token) :=
  match last_n_tokens with
  | [] => Except.error (Stop.fault Fault.erase_empty)
  | _ :: rest => Except.ok (rest ++ [id])

/-- Lines 160-193: the state in which the loop is entered. The global
`is_interacting` is `false` at program start. -/
def run_model_init {σ : Type} (env : Env σ) (p : Params) (w : σ) (stdin : List Nat) :
    Except Stop (State σ) :=
  let embd_inp := env.llama_tokenize p.prompt true
  let n_predict := min p.n_predict (p.n_ctx - (embd_inp.length : Int))
  let antiprompt_inp := env.llama_tokenize p.antiprompt false
  let primed := env.llama_eval w 0 [0, 1, 2, 3] []
  if p.repeat_last_n < 0 then
    Except.error (Stop.fault Fault.bad_length)
  else
    Except.ok
      { world := primed.1
        stdin := stdin
        stdout := []
        logits := primed.2.2
        embd_inp := embd_inp
        antiprompt_inp := antiprompt_inp
        embd := []
        last_n_tokens := List.replicate p.repeat_last_n.toNat 0
        n_past := 0
        remaining_tokens := n_predict
        input_consumed := 0
        input_noecho := false
        is_interacting := p.interactive_start
        events := [Event.fed [0, 1, 2, 3]] }

/-- Lines 203-215: feed `embd` to the evaluator, advance `n_past`, clear
`embd`. -/
def predict {σ : Type} (env : Env σ) (s : State σ) : Except Stop (State σ) :=
  if s.embd.length > 0 then
    let r := env.llama_eval s.world s.n_past s.embd s.logits
    if !r.2.1 then
      Except.error Stop.failed_to_predict
    else
      Except.ok { s with
        world := r.1
        logits := r.2.2
        events := s.events ++ [Event.fed s.embd]
        n_past := s.n_past + (s.embd.length : Int)
        embd := [] }
  else
    Except.ok { s with n_past := s.n_past + (s.embd.length : Int), embd := [] }

/-- Line 226: `logits[logits.size() - n_vocab + EOS_TOKEN_ID] = 0`. -/
def clear_eos_logit (n_vocab : Int) (logits : List Logit) : Except Stop (List Logit) :=
  let idx : Int := (logits.length : Int) - n_vocab + EOS_TOKEN_ID
  if 0 ≤ idx ∧ idx < (logits.length : Int) then
    Except.ok (logits.set idx.toNat 0)
  else
    Except.error (Stop.fault Fault.logits_out_of_range)

/-- The argument `logits.data() + (logits.size() - n_vocab)` of line 229: the
last `n_vocab` entries of `logits`. -/
def logits_slice (n_vocab : Int) (logits : List Logit) : Except Stop (List Logit) :=
  if 0 ≤ n_vocab ∧ n_vocab ≤ (logits.length : Int) then
    Except.ok (logits.drop (logits.length - n_vocab.toNat))
  else
    Except.error (Stop.fault Fault.logits_out_of_range)

/-- Lines 219-244: sample the next token. -/
def sample_next {σ : Type} (env : Env σ) (p : Params) (s : State σ) :
    Except Stop (State σ) :=
  (if p.ignore_eos then clear_eos_logit p.n_vocab s.logits else Except.ok s.logits).bind
    fun logits =>
  (logits_slice p.n_vocab logits).bind fun slice =>
  let r := env.llama_sample_top_p_top_k s.world slice s.last_n_tokens
  (window_push s.last_n_tokens r.2).bind fun window =>
  Except.ok { s with
    world := r.1
    logits := logits
    last_n_tokens := window
    events := s.events ++ [Event.sampled r.2]
    embd := s.embd ++ [r.2]
    input_noecho := false
    remaining_tokens := s.remaining_tokens - 1 }

/-- Lines 249-252: one queued token is appended to `embd`, pushed through the
window, and the cursor advances. -/
def drain_one {σ : Type} (s : State σ) : Except Stop (State σ) :=
  match s.embd_inp[s.input_consumed.toNat]? with
  | none => Except.error (Stop.fault Fault.index_out_of_range)
  | some id =>
    (window_push s.last_n_tokens id).bind fun window =>
    Except.ok { s with
      embd := s.embd ++ [id]
      last_n_tokens := window
      input_consumed := s.input_consumed + 1 }

/-- Lines 248-256: the loop forwarding queued tokens to `embd`, left when the
queue is used up or when `embd.size() > params.n_batch`. One unit of fuel is
one token forwarded. -/
def drain {σ : Type} (n_batch : Int) : Nat → State σ → Except Stop (State σ)
  | 0, s =>
    if size_gt_int s.embd_inp.length s.input_consumed then
      Except.error (Stop.fault Fault.out_of_fuel)
    else
      Except.ok s
  | fuel + 1, s =>
    if size_gt_int s.embd_inp.length s.input_consumed then
      match drain_one s with
      | Except.error why => Except.error why
      | Except.ok s' =>
        if size_gt_int s'.embd.length n_batch then
          Except.ok s'
        else
          drain n_batch fuel s'
    else
      Except.ok s

/-- Lines 217-262: sample when the queue is used up, otherwise forward queued
tokens. -/
def feed {σ : Type} (env : Env σ) (p : Params) (s : State σ) : Except Stop (State σ) :=
  if size_le_int s.embd_inp.length s.input_consumed then
    sample_next env p s
  else
    drain p.n_batch s.embd_inp.length s

/-- Lines 265-270: print the tokens of `embd` unless echo is off. -/
def display {σ : Type} (s : State σ) : State σ :=
  if !s.input_noecho then { s with stdout := s.stdout ++ s.embd } else s

/-- Lines 274-283: in interactive mode with the queue used up, read user
input when the reverse prompt is detected. -/
def interact {σ : Type} (env : Env σ) (p : Params) (s : State σ) : Except Stop (State σ) :=
  if p.interactive && size_le_int s.embd_inp.length s.input_consumed then
    match detect_reverse_prompt s.antiprompt_inp s.last_n_tokens with
    | Except.error f => Except.error (Stop.fault f)
    | Except.ok false => Except.ok s
    | Except.ok true =>
      match read_user_input env.llama_tokenize s.stdin s.embd_inp with
      | Except.error f => Except.error (Stop.fault f)
      | Except.ok r =>
        Except.ok { s with
          stdin := r.stdin
          embd_inp := r.embd_inp
          remaining_tokens := s.remaining_tokens - r.total_tokens_read
          is_interacting := false
          input_noecho := true }
  else
    Except.ok s

/-- Lines 286-289: the end-of-text check; `true` means `break`. -/
def end_of_text {σ : Type} (s : State σ) : Except Stop Bool :=
  match s.embd.getLast? with
  | none => Except.error (Stop.fault Fault.back_empty)
  | some id => Except.ok (decide (id = EOS_TOKEN_ID))

/-- One iteration of the `while` loop (lines 202-293): the state at its end
and whether the loop is left by `break`. -/
def loop_body {σ : Type} (env : Env σ) (p : Params) (s : State σ) :
    Except Stop (Bool × State σ) :=
  (predict env s).bind fun s1 =>
  (feed env p s1).bind fun s2 =>
  (interact env p (display s2)).bind fun s4 =>
  (end_of_text s4).bind fun brk =>
  Except.ok (brk, s4)

/-- How the loop of `run_model` ends. -/
inductive Outcome (σ : Type) where
  /-- the loop was left (budget used up, or `break` at end of text) -/
  | finished (s : State σ)
  /-- `return 1` after an evaluator failure, or undefined behaviour -/
  | stopped (why : Stop)
  /-- the iteration budget of the embedding ran out with the loop still live -/
  | unfinished (s : State σ)

/-- The `while (remaining_tokens > 0)` loop (lines 201-294); one unit of fuel
is one iteration. -/
def run_loop {σ : Type} (env : Env σ) (p : Params) : Nat → State σ → Outcome σ
  | fuel, s =>
    if s.remaining_tokens > 0 then
      match fuel with
      | 0 => Outcome.unfinished s
      | fuel' + 1 =>
        match loop_body env p s with
        | Except.error why => Outcome.stopped why
        | Except.ok (true, s') => Outcome.finished s'
        | Except.ok (false, s') => run_loop env p fuel' s'
    else
      Outcome.finished s

/-- The bound on the number of iterations: the length of the tokenized prompt
plus the clamped budget when that is positive. -/
def iteration_bound {σ : Type} (s : State σ) : Nat :=
  s.embd_inp.length + (max 0 s.remaining_tokens).toNat

/-- The function `run_model` up to the end of its loop. -/
def run_model {σ : Type} (env : Env σ) (p : Params) (w : σ) (stdin : List Nat) : Outcome σ :=
  match run_model_init env p w stdin with
  | Except.error why => Outcome.stopped why
  | Except.ok s => run_loop env p (iteration_bound s) s

/-! ## Points of an execution -/

/-- The places of `run_model` at which the state is observed: the loop head,
after the evaluator step (lines 203-215), inside the forwarding loop (line
248), after sampling or forwarding (line 262), after printing (line 270) and
after the interactive check (line 283). -/
inductive Pc where
  | head
  | predicted
  | draining
  | fed
  | displayed
  | interacted
  deriving DecidableEq, Repr

/-- The states an execution of `run_model` passes through, place by place. -/
inductive Reach {σ : Type} (env : Env σ) (p : Params) (w : σ) (stdin : List Nat) :
    Pc → State σ → Prop where
  | init {s : State σ} :
      run_model_init env p w stdin = Except.ok s → Reach env p w stdin Pc.head s
  | predict {s s' : State σ} :
      Reach env p w stdin Pc.head s → s.remaining_tokens > 0 →
      predict env s = Except.ok s' → Reach env p w stdin Pc.predicted s'
  | drain_enter {s : State σ} :
      Reach env p w stdin Pc.predicted s →
      size_le_int s.embd_inp.length s.input_consumed = false →
      Reach env p w stdin Pc.draining s
  | drain_more {s s' : State σ} :
      Reach env p w stdin Pc.draining s →
      size_gt_int s.embd_inp.length s.input_consumed = true →
      drain_one s = Except.ok s' →
      size_gt_int s'.embd.length p.n_batch = false →
      Reach env p w stdin Pc.draining s'
  | feed {s s' : State σ} :
      Reach env p w stdin Pc.predicted s → feed env p s = Except.ok s' →
      Reach env p w stdin Pc.fed s'
  | display {s : State σ} :
      Reach env p w stdin Pc.fed s → Reach env p w stdin Pc.displayed (display s)
  | interact {s s' : State σ} :
      Reach env p w stdin Pc.displayed s → interact env p s = Except.ok s' →
      Reach env p w stdin Pc.interacted s'
  | next {s : State σ} :
      Reach env p w stdin Pc.interacted s → end_of_text s = Except.ok false →
      Reach env p w stdin Pc.head s

/-- The cursor and context bounds of the loop. -/
def Bounds {σ : Type} (p : Params) (s : State σ) : Prop :=
  0 ≤ s.input_consumed ∧ s.input_consumed ≤ (s.embd_inp.length : Int) ∧
  0 ≤ s.n_past ∧ s.n_past + (s.embd.length : Int) ≤ p.n_ctx

/-- The quantity `remaining_tokens + (|embd_inp| - input_consumed)`. -/
def measure {σ : Type} (s : State σ) : Int :=
  s.remaining_tokens + ((s.embd_inp.length : Int) - s.input_consumed)

/-- The state in which an outcome leaves the loop, when it has one. -/
def Outcome.state? {σ : Type} : Outcome σ → Option (State σ)
  | Outcome.finished s => some s
  | Outcome.stopped _ => none
  | Outcome.unfinished s => some s

/-- The reason an outcome was stopped, when it was. -/
def Outcome.why? {σ : Type} : Outcome σ → Option Stop
  | Outcome.finished _ => none
  | Outcome.stopped why => some why
  | Outcome.unfinished _ => none

/-- The budget bookkeeping carried along an execution: the bounds, the
conservation of `n_past + |embd| + (|embd_inp| - input_consumed) +
remaining_tokens` below `n_ctx`, and a positive budget while a token is being
produced. -/
def Budget {σ : Type} (p : Params) (pc : Pc) (s : State σ) : Prop :=
  Bounds p s ∧
  s.n_past + (s.embd.length : Int) + ((s.embd_inp.length : Int) - s.input_consumed)
    + s.remaining_tokens ≤ p.n_ctx ∧
  (pc ≠ Pc.head → 0 ≤ ((s.embd_inp.length : Int) - s.input_consumed) + s.remaining_tokens) ∧
  (pc = Pc.predicted ∨ pc = Pc.draining → 0 < s.remaining_tokens)

/-- A line of standard input is short when fewer than 255 bytes precede its
newline (or the end of input). -/
def short_lines (stdin : List Nat) : Prop :=
  ∀ k : Nat, ((stdin.drop k).takeWhile (fun b => b ≠ NL)).length < 255

/-- A byte-level tokenizer: one token per byte, after the beginning-of-sequence
token 1 when `add_bos` is set. -/
def byte_tokenize (text : List Nat) (add_bos : Bool) : List Token :=
  (if add_bos then [1] else []) ++ text.map Int.ofNat

/-- Index of the first largest entry of a list of scores, counting from
`i`; `best` and `at_idx` are the largest entry so far and its index. -/
def argmax_from : List Logit → Nat → Logit → Nat → Nat
  | [], _, _, at_idx => at_idx
  | x :: xs, i, best, at_idx =>
    if x > best then argmax_from xs (i + 1) x i else argmax_from xs (i + 1) best at_idx

/-- Modelled from the spec: the sampler `llama_sample_top_p_top_k` is not in
`main.cpp`; with `top_k = 1` it "behaves as argmax over the
repetition-and-temperature-adjusted logits", and with `repeat_penalty = 1`
and `temp = 1` the adjustment changes nothing. -/
def greedy_sample (slice : List Logit) (_last_n_tokens : List Token) : Token :=
  match slice with
  | [] => 0
  | x :: xs => (argmax_from xs 1 x 0 : Nat)

/-- An evaluator over a four-entry vocabulary that scores every entry -1 at
every position, with the greedy sampler and the byte-level tokenizer. -/
def flat_env : Env Unit where
  llama_tokenize := byte_tokenize
  llama_eval := fun w _ _ _ => (w, true, [-1, -1, -1, -1])
  llama_sample_top_p_top_k := fun w slice window => (w, greedy_sample slice window)

/-- Parameters of the concrete runs: prompt `a`, no reverse prompt, budget 1,
window of 2, context of 8, vocabulary of 4, not interactive. -/
def base_params : Params where
  prompt := [97]
  antiprompt := []
  n_predict := 1
  n_batch := 8
  repeat_last_n := 2
  interactive := false
  interactive_start := false
  ignore_eos := false
  n_ctx := 8
  n_vocab := 4

/-- The parameters `base_params` in interactive mode with `interactive_start`. -/
def interactive_params : Params :=
  { base_params with interactive := true, interactive_start := true }

/-- The state in which `run_model` enters its loop on `base_params` with the
collaborators `flat_env` and empty standard input. -/
def base_state0 : State Unit where
  world := ()
  stdin := []
  stdout := []
  logits := [-1, -1, -1, -1]
  embd_inp := [1, 97]
  antiprompt_inp := []
  embd := []
  last_n_tokens := [0, 0]
  n_past := 0
  remaining_tokens := 1
  input_consumed := 0
  input_noecho := false
  is_interacting := false
  events := [Event.fed [0, 1, 2, 3]]

/-- The state `base_state0` after the evaluator step of the first iteration. -/
def base_state1 : State Unit :=
  { base_state0 with embd := [] }

/-- The state after the prompt has been forwarded in the first iteration. -/
def base_state2 : State Unit :=
  { base_state0 with embd := [1, 97], last_n_tokens := [1, 97], input_consumed := 2 }

/-- The state at the end of the first iteration, the prompt printed. -/
def base_state3 : State Unit :=
  { base_state2 with stdout := [1, 97] }

/-- The parameters `base_params` with `ignore_eos` set. -/
def ignore_eos_params : Params :=
  { base_params with ignore_eos := true }

/-- The state in which the run on `ignore_eos_params` leaves the loop. -/
def ignore_eos_final : State Unit :=
  { base_state3 with
    stdout := [1, 97, 2]
    logits := [-1, -1, 0, -1]
    embd := [2]
    last_n_tokens := [97, 2]
    n_past := 2
    remaining_tokens := 0
    events := [Event.fed [0, 1, 2, 3], Event.fed [1, 97], Event.sampled 2] }

/-- The state in which `run_model` enters its loop on `interactive_params`
with the collaborators `flat_env` and the line `hi` on standard input. -/
def interactive_state0 : State Unit :=
  { base_state0 with stdin := [104, 105, NL], is_interacting := true }

/-- The state at the end of the first iteration from `interactive_state0`. -/
def interactive_state1 : State Unit :=
  { interactive_state0 with
    stdout := [1, 97]
    embd := [1, 97]
    last_n_tokens := [1, 97]
    input_consumed := 2 }

/-- The state at the end of the second iteration from `interactive_state0`. -/
def interactive_state2 : State Unit :=
  { interactive_state1 with
    stdout := [1, 97, 0]
    embd := [0]
    last_n_tokens := [97, 0]
    n_past := 2
    remaining_tokens := 0
    events := [Event.fed [0, 1, 2, 3], Event.fed [1, 97], Event.sampled 0] }

/-! ## Reverse-prompt detector: facts -/

theorem std_equal_of_le (as : List Token) :
    ∀ bs : List Token, as.length ≤ bs.length →
      std_equal as bs = Except.ok (decide (as <+: bs)) := by
  induction as with
  | nil => intro bs _; simp [std_equal]
  | cons a as ih =>
    intro bs h
    cases bs with
    | nil => simp at h
    | cons b bs =>
      have h' : as.length ≤ bs.length := by simpa using h
      by_cases hab : a = b
      · subst hab
        simp [std_equal, ih bs h', List.cons_prefix_cons]
      · simp [std_equal, hab, List.cons_prefix_cons]

theorem std_equal_short (bs : List Token) :
    ∀ (c : Token) (cs : List Token),
      std_equal (bs ++ c :: cs) bs = Except.error Fault.read_before_begin := by
  induction bs with
  | nil => intro c cs; simp [std_equal]
  | cons b bs ih => intro c cs; simp [std_equal, ih]

/-- On a window at least as long as the reverse prompt the detector answers
whether the prompt is non-empty and the window ends with it. -/
theorem detect_reverse_prompt_of_le (R H : List Token) (h : R.length ≤ H.length) :
    detect_reverse_prompt R H = Except.ok (decide (R ≠ [] ∧ R <:+ H)) := by
  unfold detect_reverse_prompt
  by_cases hR : R = []
  · subst hR; simp
  · have hlen : R.length ≠ 0 := by
      intro h0; exact hR (List.length_eq_zero.mp h0)
    rw [if_pos hlen, std_equal_of_le _ _ (by simpa using h)]
    simp [hR, List.reverse_prefix]

/-- The empty reverse prompt is never detected. -/
theorem detect_reverse_prompt_nil (H : List Token) :
    detect_reverse_prompt [] H = Except.ok false := by
  simp [detect_reverse_prompt]

/-- A reverse prompt that is longer than the window and ends with the whole
window makes the detector read before the start of the window. -/
theorem detect_reverse_prompt_overrun (pre : List Token) (c : Token) (H : List Token) :
    detect_reverse_prompt (pre ++ c :: H) H = Except.error Fault.read_before_begin := by
  unfold detect_reverse_prompt
  have hlen : (pre ++ c :: H).length ≠ 0 := by simp
  rw [if_pos hlen]
  have : (pre ++ c :: H).reverse = H.reverse ++ c :: pre.reverse := by simp
  rw [this]
  exact std_equal_short _ _ _

/-! ## Shape of the state after each step -/

theorem predict_ok {σ : Type} (env : Env σ) (s s' : State σ)
    (h : predict env s = Except.ok s') :
    ∃ w l ev, (ev = s.events ∨ ev = s.events ++ [Event.fed s.embd]) ∧
      s' = { s with world := w, logits := l, events := ev,
                    n_past := s.n_past + (s.embd.length : Int), embd := [] } := by
  unfold predict at h
  dsimp only at h
  split at h
  · split at h
    · cases h
    · cases h
      exact ⟨_, _, _, Or.inr rfl, rfl⟩
  · cases h
    exact ⟨_, _, _, Or.inl rfl, rfl⟩

theorem window_push_ok (win win' : List Token) (id : Token)
    (h : window_push win id = Except.ok win') :
    win'.length = win.length ∧ win ≠ [] ∧ win' = win.tail ++ [id] := by
  unfold window_push at h
  cases win with
  | nil => cases h
  | cons a rest => cases h; simp

theorem sample_next_ok {σ : Type} (env : Env σ) (p : Params) (s s' : State σ)
    (h : sample_next env p s = Except.ok s') :
    ∃ w l win id, window_push s.last_n_tokens id = Except.ok win ∧
      s' = { s with world := w, logits := l, last_n_tokens := win,
                    events := s.events ++ [Event.sampled id],
                    embd := s.embd ++ [id], input_noecho := false,
                    remaining_tokens := s.remaining_tokens - 1 } := by
  unfold sample_next at h
  cases h1 : (if p.ignore_eos then clear_eos_logit p.n_vocab s.logits else Except.ok s.logits) with
  | error e => rw [h1] at h; cases h
  | ok logits =>
    rw [h1] at h
    cases h2 : logits_slice p.n_vocab logits with
    | error e => simp [Except.bind, h2] at h
    | ok slice =>
      cases h3 : window_push s.last_n_tokens
          (env.llama_sample_top_p_top_k s.world slice s.last_n_tokens).2 with
      | error e => simp [Except.bind, h2, h3] at h
      | ok win =>
        simp [Except.bind, h2, h3] at h
        exact ⟨_, _, _, _, h3, h.symm⟩

theorem drain_one_ok {σ : Type} (s s' : State σ) (h : drain_one s = Except.ok s') :
    ∃ id win, s.embd_inp[s.input_consumed.toNat]? = some id ∧
      window_push s.last_n_tokens id = Except.ok win ∧
      s' = { s with embd := s.embd ++ [id], last_n_tokens := win,
                    input_consumed := s.input_consumed + 1 } := by
  unfold drain_one at h
  cases h1 : s.embd_inp[s.input_consumed.toNat]? with
  | none => simp [h1] at h
  | some id =>
    cases h2 : window_push s.last_n_tokens id with
    | error e => simp [h1, Except.bind, h2] at h
    | ok win =>
      simp [h1, Except.bind, h2] at h
      exact ⟨id, win, rfl, h2, h.symm⟩

theorem size_gt_int_iff (n : Nat) (i : Int) :
    size_gt_int n i = true ↔ 0 ≤ i ∧ i < (n : Int) := by
  unfold size_gt_int size_le_int
  simp

theorem size_le_int_false_iff (n : Nat) (i : Int) :
    size_le_int n i = false ↔ 0 ≤ i ∧ i < (n : Int) := by
  unfold size_le_int
  simp

theorem size_le_int_iff (n : Nat) (i : Int) :
    size_le_int n i = true ↔ i < 0 ∨ (n : Int) ≤ i := by
  unfold size_le_int
  simp

/-- What the forwarding loop does: it appends a batch `d` of queued tokens to
`embd`, advances the cursor by `|d|` without passing the end of the queue,
and keeps the size of the window. -/
theorem drain_ok {σ : Type} (n_batch : Int) :
    ∀ (fuel : Nat) (s s' : State σ), drain n_batch fuel s = Except.ok s' →
      ∃ d win, win.length = s.last_n_tokens.length ∧
        (size_gt_int s.embd_inp.length s.input_consumed = true → d ≠ []) ∧
        (0 ≤ s.input_consumed → s.input_consumed ≤ (s.embd_inp.length : Int) →
          s.input_consumed + (d.length : Int) ≤ (s.embd_inp.length : Int)) ∧
        s' = { s with embd := s.embd ++ d, last_n_tokens := win,
                      input_consumed := s.input_consumed + (d.length : Int) } := by
  intro fuel
  induction fuel with
  | zero =>
    intro s s' h
    unfold drain at h
    split at h
    · cases h
    · cases h
      rename_i hc
      exact ⟨[], s.last_n_tokens, rfl, fun hc' => absurd hc' hc, by intro _ h2; simpa using h2,
        by simp⟩
  | succ fuel ih =>
    intro s s' h
    unfold drain at h
    split at h
    · rename_i hc
      cases h1 : drain_one s with
      | error e => simp [h1] at h
      | ok s1 =>
        obtain ⟨id, win, hget, hwin, hs1⟩ := drain_one_ok s s1 h1
        have hwl := (window_push_ok _ _ _ hwin).1
        rw [size_gt_int_iff] at hc
        simp only [h1] at h
        split at h
        · cases h
          refine ⟨[id], win, hwl, fun _ => by simp, ?_, ?_⟩
          · intro _ _; simp; omega
          · rw [hs1]; simp
        · obtain ⟨d, win2, hl2, _, hb2, hs'⟩ := ih s1 s' h
          refine ⟨id :: d, win2, ?_, fun _ => by simp, ?_, ?_⟩
          · rw [hl2, hs1]; exact hwl
          · intro h0 _
            have := hb2 (by rw [hs1]; simp; omega) (by rw [hs1]; simp; omega)
            rw [hs1] at this
            simp at this ⊢
            omega
          · rw [hs', hs1]
            simp
            omega
    · cases h
      rename_i hc
      exact ⟨[], s.last_n_tokens, rfl, fun hc' => absurd hc' hc, by intro _ h2; simpa using h2,
        by simp⟩

theorem interact_ok {σ : Type} (env : Env σ) (p : Params) (s s' : State σ)
    (h : interact env p s = Except.ok s') :
    s' = s ∨
    (p.interactive = true ∧ size_le_int s.embd_inp.length s.input_consumed = true ∧
      detect_reverse_prompt s.antiprompt_inp s.last_n_tokens = Except.ok true ∧
      ∃ r, read_user_input env.llama_tokenize s.stdin s.embd_inp = Except.ok r ∧
        s' = { s with stdin := r.stdin, embd_inp := r.embd_inp,
                      remaining_tokens := s.remaining_tokens - r.total_tokens_read,
                      is_interacting := false, input_noecho := true }) := by
  unfold interact at h
  split at h
  · rename_i hc
    simp only [Bool.and_eq_true] at hc
    cases hd : detect_reverse_prompt s.antiprompt_inp s.last_n_tokens with
    | error e => simp [hd] at h
    | ok b =>
      cases b with
      | false => simp [hd] at h; exact Or.inl h.symm
      | true =>
        cases hr : read_user_input env.llama_tokenize s.stdin s.embd_inp with
        | error e => simp [hd, hr] at h
        | ok r =>
          simp [hd, hr] at h
          exact Or.inr ⟨hc.1, hc.2, rfl, r, rfl, h.symm⟩
  · cases h
    exact Or.inl rfl

/-! ## Reading user input: facts -/

theorem read_lines_ok (tokenize : List Nat → Bool → List Token) :
    ∀ (fuel : Nat) (stdin : List Nat) (q : List Token) (t : Int) (r : ReadResult),
      read_lines tokenize fuel stdin q t = Except.ok r →
      ∃ added : List Token, r.embd_inp = q ++ added ∧
        r.total_tokens_read = t + (added.length : Int) := by
  intro fuel
  induction fuel with
  | zero => intro stdin q t r h; simp [read_lines] at h
  | succ fuel ih =>
    intro stdin q t r h
    unfold read_lines at h
    dsimp only at h
    split at h
    · cases h
    · rename_i buf hbuf
      split at h
      · obtain ⟨added, h1, h2⟩ := ih _ _ _ _ h
        refine ⟨tokenize (c_string buf) false ++ added, ?_, ?_⟩
        · rw [h1]; simp
        · rw [h2]; simp; omega
      · cases h
        exact ⟨tokenize (c_string buf) false, rfl, rfl⟩

theorem scan_line_n_read (stdin : List Nat) :
    (scan_line stdin).n_read =
      (((stdin.takeWhile (fun b => b ≠ NL)).take 255).length : Int) := by
  unfold scan_line
  dsimp only
  split
  · rename_i h; rw [h]; rfl
  · rfl

theorem scan_line_rest (stdin : List Nat) :
    (scan_line stdin).rest =
      stdin.drop (((stdin.takeWhile (fun b => b ≠ NL)).take 255).length + 1) := by
  unfold scan_line
  dsimp only
  split
  · rename_i h; rw [h]
  · rw [List.drop_drop, Nat.add_comm]

theorem terminate_line_ok (sc : Scan) (h0 : 0 ≤ sc.n_read) (h1 : sc.n_read < 255) :
    ∃ buf, terminate_line sc = Except.ok buf := by
  unfold terminate_line buf_store BUF_SIZE
  by_cases hc : is_continuation sc = true
  · have hpos : 0 < sc.n_read := by
      unfold is_continuation at hc
      simp at hc
      exact hc.1
    have a1 : 0 ≤ sc.n_read - 1 := by omega
    have a2 : sc.n_read - 1 < 256 := by omega
    have a3 : sc.n_read < 256 := by omega
    simp [hc, a1, a2, a3, h0, Except.bind]
  · have a1 : 0 ≤ sc.n_read + 1 := by omega
    have a2 : sc.n_read + 1 < 256 := by omega
    have a3 : sc.n_read < 256 := by omega
    simp [hc, a1, a2, a3, h0, Except.bind]

theorem read_lines_total (tokenize : List Nat → Bool → List Token) :
    ∀ (fuel : Nat) (stdin : List Nat) (q : List Token) (t : Int),
      stdin.length < fuel → short_lines stdin →
      ∃ r, read_lines tokenize fuel stdin q t = Except.ok r := by
  intro fuel
  induction fuel with
  | zero => intro stdin q t h; omega
  | succ fuel ih =>
    intro stdin q t hlen hshort
    have hn := scan_line_n_read stdin
    have hfield : ((stdin.takeWhile (fun b => b ≠ NL)).take 255).length < 255 := by
      have := hshort 0
      simp only [List.drop_zero] at this
      rw [List.length_take]
      omega
    obtain ⟨buf, hbuf⟩ := terminate_line_ok (scan_line stdin) (by rw [hn]; omega)
      (by rw [hn]; omega)
    unfold read_lines
    dsimp only
    rw [hbuf]
    dsimp only
    split
    · rename_i hc
      apply ih
      · rw [scan_line_rest, List.length_drop]
        have hpos : 0 < (scan_line stdin).n_read := by
          unfold is_continuation at hc
          simp at hc
          exact hc.1
        rw [hn] at hpos
        have : 0 < stdin.length := by
          rcases stdin with _ | ⟨a, l⟩
          · simp at hpos
          · simp
        omega
      · intro k
        rw [scan_line_rest, List.drop_drop]
        exact hshort _
    · exact ⟨_, rfl⟩

/-! ## Budget bookkeeping -/

theorem feed_cases {σ : Type} (env : Env σ) (p : Params) (s s' : State σ)
    (h : feed env p s = Except.ok s') :
    (size_le_int s.embd_inp.length s.input_consumed = true ∧ sample_next env p s = Except.ok s') ∨
    (size_gt_int s.embd_inp.length s.input_consumed = true ∧
      drain p.n_batch s.embd_inp.length s = Except.ok s') := by
  unfold feed at h
  split at h
  · rename_i hc; exact Or.inl ⟨hc, h⟩
  · rename_i hc; exact Or.inr ⟨by simpa [size_gt_int] using hc, h⟩

theorem budget_init {σ : Type} (env : Env σ) (p : Params) (w : σ) (stdin : List Nat)
    (s : State σ) (hctx : 0 ≤ p.n_ctx) (h : run_model_init env p w stdin = Except.ok s) :
    Budget p Pc.head s := by
  unfold run_model_init at h
  dsimp only at h
  split at h
  · cases h
  · cases h
    unfold Budget Bounds
    simp
    refine ⟨hctx, ?_⟩
    have := min_le_right p.n_predict (p.n_ctx - ((env.llama_tokenize p.prompt true).length : Int))
    omega

theorem budget_step {σ : Type} (env : Env σ) (p : Params) (w : σ) (stdin : List Nat)
    (hctx : 0 ≤ p.n_ctx) :
    ∀ (pc : Pc) (s : State σ), Reach env p w stdin pc s → Budget p pc s := by
  intro pc s hr
  induction hr with
  | init h => exact budget_init env p w stdin _ hctx h
  | predict _ hpos h ih =>
    obtain ⟨w1, l1, ev1, _, rfl⟩ := predict_ok env _ _ h
    unfold Budget Bounds at ih ⊢
    simp at ih ⊢
    omega
  | drain_enter _ hc ih =>
    unfold Budget Bounds at ih ⊢
    simp at ih ⊢
    omega
  | drain_more _ hc h _ ih =>
    obtain ⟨id, win, _, _, rfl⟩ := drain_one_ok _ _ h
    rw [size_gt_int_iff] at hc
    unfold Budget Bounds at ih ⊢
    simp at ih ⊢
    omega
  | feed _ h ih =>
    rcases feed_cases env p _ _ h with ⟨hc, h1⟩ | ⟨hc, h1⟩
    · obtain ⟨w1, l1, win, id, _, rfl⟩ := sample_next_ok env p _ _ h1
      rw [size_le_int_iff] at hc
      unfold Budget Bounds at ih ⊢
      simp at ih ⊢
      omega
    · obtain ⟨d, win, _, _, hb, rfl⟩ := drain_ok _ _ _ _ h1
      rw [size_gt_int_iff] at hc
      unfold Budget Bounds at ih ⊢
      simp at ih ⊢
      have := hb hc.1 (by omega)
      omega
  | display _ ih =>
    unfold display
    split
    · unfold Budget Bounds at ih ⊢
      simp at ih ⊢
      omega
    · unfold Budget Bounds at ih ⊢
      simp at ih ⊢
      omega
  | interact _ h ih =>
    rcases interact_ok env p _ _ h with rfl | ⟨_, _, _, r, hr, rfl⟩
    · unfold Budget Bounds at ih ⊢
      simp at ih ⊢
      omega
    · obtain ⟨added, ha, ht⟩ := read_lines_ok _ _ _ _ _ _ hr
      unfold Budget Bounds at ih ⊢
      simp [ha, ht] at ih ⊢
      omega
  | next _ _ ih =>
    unfold Budget Bounds at ih ⊢
    simp at ih ⊢
    omega

/-! ## The history window -/

theorem window_length {σ : Type} (env : Env σ) (p : Params) (w : σ) (stdin : List Nat) :
    ∀ (pc : Pc) (s : State σ), Reach env p w stdin pc s →
      s.last_n_tokens.length = p.repeat_last_n.toNat := by
  intro pc s hr
  induction hr with
  | init h =>
    unfold run_model_init at h
    dsimp only at h
    split at h
    · cases h
    · cases h; simp
  | predict _ _ h ih =>
    obtain ⟨w1, l1, ev1, _, rfl⟩ := predict_ok env _ _ h
    exact ih
  | drain_enter _ _ ih => exact ih
  | drain_more _ _ h _ ih =>
    obtain ⟨id, win, _, hw, rfl⟩ := drain_one_ok _ _ h
    rw [← ih]
    exact (window_push_ok _ _ _ hw).1
  | feed _ h ih =>
    rcases feed_cases env p _ _ h with ⟨_, h1⟩ | ⟨_, h1⟩
    · obtain ⟨w1, l1, win, id, hw, rfl⟩ := sample_next_ok env p _ _ h1
      rw [← ih]
      exact (window_push_ok _ _ _ hw).1
    · obtain ⟨d, win, hl, _, _, rfl⟩ := drain_ok _ _ _ _ h1
      rw [← ih]
      exact hl
  | display _ ih =>
    unfold display
    split
    · exact ih
    · exact ih
  | interact _ h ih =>
    rcases interact_ok env p _ _ h with rfl | ⟨_, _, _, r, _, rfl⟩
    · exact ih
    · exact ih
  | next _ _ ih => exact ih

/-! ## One iteration -/

theorem loop_body_ok {σ : Type} (env : Env σ) (p : Params) (s s' : State σ) (brk : Bool)
    (h : loop_body env p s = Except.ok (brk, s')) :
    ∃ s1 s2, predict env s = Except.ok s1 ∧ feed env p s1 = Except.ok s2 ∧
      interact env p (display s2) = Except.ok s' ∧ end_of_text s' = Except.ok brk := by
  unfold loop_body at h
  cases h1 : predict env s with
  | error e => simp [h1, Except.bind] at h
  | ok s1 =>
    cases h2 : feed env p s1 with
    | error e => simp [h1, h2, Except.bind] at h
    | ok s2 =>
      cases h3 : interact env p (display s2) with
      | error e => simp [h1, h2, h3, Except.bind] at h
      | ok s4 =>
        cases h4 : end_of_text s4 with
        | error e => simp [h1, h2, h3, h4, Except.bind] at h
        | ok b =>
          simp [h1, h2, h3, h4, Except.bind] at h
          obtain ⟨rfl, rfl⟩ := h
          exact ⟨s1, s2, rfl, h2, h3, h4⟩

theorem display_fields {σ : Type} (s : State σ) :
    (display s).embd = s.embd ∧ (display s).embd_inp = s.embd_inp ∧
    (display s).input_consumed = s.input_consumed ∧
    (display s).remaining_tokens = s.remaining_tokens ∧
    (display s).n_past = s.n_past ∧ (display s).events = s.events ∧
    (display s).is_interacting = s.is_interacting ∧
    (display s).last_n_tokens = s.last_n_tokens ∧ (display s).stdin = s.stdin := by
  unfold display
  split <;> simp

theorem interact_measure {σ : Type} (env : Env σ) (p : Params) (s s' : State σ)
    (h : interact env p s = Except.ok s') :
    s'.embd = s.embd ∧ s'.events = s.events ∧ measure s' = measure s ∧
    s'.input_consumed = s.input_consumed ∧
    ∃ added : List Token, s'.embd_inp = s.embd_inp ++ added ∧
      s'.remaining_tokens = s.remaining_tokens - (added.length : Int) := by
  rcases interact_ok env p _ _ h with rfl | ⟨_, _, _, r, hr, rfl⟩
  · exact ⟨rfl, rfl, rfl, rfl, [], by simp, by simp⟩
  · obtain ⟨added, ha, ht⟩ := read_lines_ok _ _ _ _ _ _ hr
    refine ⟨rfl, rfl, ?_, rfl, added, ha, ?_⟩
    · unfold measure
      simp [ha, ht]
      omega
    · simp [ht]

theorem not_mem_dropLast {α : Type} (x : α) (l : List α) (h : x ∉ l) : x ∉ l.dropLast :=
  fun hm => h (List.dropLast_subset l hm)

theorem loop_body_reach {σ : Type} (env : Env σ) (p : Params) (w : σ) (stdin : List Nat)
    (s s' : State σ) (brk : Bool) (hr : Reach env p w stdin Pc.head s)
    (hpos : s.remaining_tokens > 0) (h : loop_body env p s = Except.ok (brk, s')) :
    Reach env p w stdin Pc.interacted s' ∧ end_of_text s' = Except.ok brk := by
  obtain ⟨s1, s2, h1, h2, h3, h4⟩ := loop_body_ok env p s s' brk h
  exact ⟨Reach.interact (Reach.display (Reach.feed (Reach.predict hr hpos h1) h2)) h3, h4⟩

theorem run_loop_reach {σ : Type} (env : Env σ) (p : Params) (w : σ) (stdin : List Nat) :
    ∀ (fuel : Nat) (s : State σ), Reach env p w stdin Pc.head s →
      ∀ s', (run_loop env p fuel s).state? = some s' → ∃ pc, Reach env p w stdin pc s' := by
  intro fuel
  induction fuel with
  | zero =>
    intro s hr s' h
    unfold run_loop at h
    split at h
    · simp [Outcome.state?] at h; exact ⟨_, h ▸ hr⟩
    · simp [Outcome.state?] at h; exact ⟨_, h ▸ hr⟩
  | succ fuel ih =>
    intro s hr s' h
    unfold run_loop at h
    split at h
    · rename_i hpos
      dsimp only at h
      cases hb : loop_body env p s with
      | error e => simp [hb, Outcome.state?] at h
      | ok r =>
        obtain ⟨brk, s1⟩ := r
        obtain ⟨hr1, he⟩ := loop_body_reach env p w stdin s s1 brk hr hpos hb
        cases brk with
        | true =>
          simp [hb, Outcome.state?] at h
          exact ⟨_, h ▸ hr1⟩
        | false =>
          simp only [hb] at h
          exact ih s1 (Reach.next hr1 he) s' h
    · simp [Outcome.state?] at h; exact ⟨_, h ▸ hr⟩

/-! ## Unfolding the loop -/

theorem run_loop_continue {σ : Type} (env : Env σ) (p : Params) (fuel : Nat)
    (s s' : State σ) (hpos : s.remaining_tokens > 0)
    (h : loop_body env p s = Except.ok (false, s')) :
    run_loop env p (fuel + 1) s = run_loop env p fuel s' := by
  rw [run_loop]
  simp only [hpos, if_true, h]

theorem run_loop_break {σ : Type} (env : Env σ) (p : Params) (fuel : Nat)
    (s s' : State σ) (hpos : s.remaining_tokens > 0)
    (h : loop_body env p s = Except.ok (true, s')) :
    run_loop env p (fuel + 1) s = Outcome.finished s' := by
  rw [run_loop]
  simp only [hpos, if_true, h]

theorem run_loop_done {σ : Type} (env : Env σ) (p : Params) (fuel : Nat)
    (s : State σ) (h : ¬ s.remaining_tokens > 0) :
    run_loop env p fuel s = Outcome.finished s := by
  cases fuel <;> simp [run_loop, h]

theorem run_model_of_init {σ : Type} (env : Env σ) (p : Params) (w : σ) (stdin : List Nat)
    (s : State σ) (h : run_model_init env p w stdin = Except.ok s) :
    run_model env p w stdin = run_loop env p (iteration_bound s) s := by
  unfold run_model
  rw [h]

/-! ## The step budgets of the embedding are never what stops a run -/

theorem buf_store_error (buf : List Nat) (i : Int) (v : Nat) (f : Fault)
    (h : buf_store buf i v = Except.error f) : f ≠ Fault.out_of_fuel := by
  unfold buf_store at h
  split at h
  · cases h
  · cases h; simp

theorem terminate_line_error (sc : Scan) (f : Fault)
    (h : terminate_line sc = Except.error f) : f ≠ Fault.out_of_fuel := by
  unfold terminate_line at h
  split at h
  · cases h1 : buf_store sc.buf (sc.n_read - 1) NL with
    | error e =>
      rw [h1] at h
      simp [Except.bind] at h
      exact h ▸ buf_store_error _ _ _ _ h1
    | ok b =>
      rw [h1] at h
      exact buf_store_error _ _ _ _ h
  · cases h1 : buf_store sc.buf sc.n_read NL with
    | error e =>
      rw [h1] at h
      simp [Except.bind] at h
      exact h ▸ buf_store_error _ _ _ _ h1
    | ok b =>
      rw [h1] at h
      exact buf_store_error _ _ _ _ h

theorem scan_line_rest_lt (stdin : List Nat)
    (hc : is_continuation (scan_line stdin) = true) :
    (scan_line stdin).rest.length < stdin.length := by
  have hn := scan_line_n_read stdin
  have hpos : 0 < (scan_line stdin).n_read := by
    unfold is_continuation at hc
    simp at hc
    exact hc.1
  rw [hn] at hpos
  rw [scan_line_rest, List.length_drop]
  have : 0 < stdin.length := by
    rcases stdin with _ | ⟨a, l⟩
    · simp at hpos
    · simp
  omega

theorem read_lines_fuel (tokenize : List Nat → Bool → List Token) :
    ∀ (fuel : Nat) (stdin : List Nat) (q : List Token) (t : Int),
      stdin.length < fuel →
      read_lines tokenize fuel stdin q t ≠ Except.error Fault.out_of_fuel := by
  intro fuel
  induction fuel with
  | zero => intro stdin q t h; omega
  | succ fuel ih =>
    intro stdin q t hlen
    unfold read_lines
    dsimp only
    cases hb : terminate_line (scan_line stdin) with
    | error f =>
      have := terminate_line_error _ _ hb
      simpa using this
    | ok buf =>
      dsimp only
      split
      · rename_i hc
        apply ih
        have := scan_line_rest_lt stdin hc
        omega
      · simp

/-- C1, at the failing input: with reverse prompt `[1, 2]` and window `[2]`
the comparison of the last elements succeeds and the next read of the window
is before its first element, so no answer `false` is returned. -/
theorem detect_reverse_prompt_longer_than_window :
    detect_reverse_prompt [1, 2] [2] = Except.error Fault.read_before_begin := by
  rfl

/-- C7: on SIGINT the handler sets `is_interacting` when it is false and
exits with status 130 when it is already true; two successive interrupts with
nothing resetting the flag in between end in exit status 130 whatever the
flag was; any other signal leaves the flag as it is; and the loop resets the
flag only in `interact`, when the reverse prompt is detected and user input
is read. -/
theorem sigint_handler_spec :
    sigint_handler SIGINT false = SigResult.resumed true ∧
    sigint_handler SIGINT true = SigResult.exited 130 ∧
    (∀ b : Bool, deliver [SIGINT, SIGINT] b = SigResult.exited 130) ∧
    (∀ (signo : Int) (b : Bool), signo ≠ SIGINT →
      sigint_handler signo b = SigResult.resumed b) ∧
    (∀ {σ : Type} (env : Env σ) (p : Params) (s s1 s2 s4 : State σ),
      predict env s = Except.ok s1 → feed env p s1 = Except.ok s2 →
      interact env p (display s2) = Except.ok s4 →
      s4.is_interacting = s.is_interacting ∨
      detect_reverse_prompt (display s2).antiprompt_inp (display s2).last_n_tokens
        = Except.ok true) := by
  refine ⟨rfl, rfl, ?_, ?_, ?_⟩
  · intro b; cases b <;> rfl
  · intro signo b h
    simp [sigint_handler, h]
  · intro σ env p s s1 s2 s4 h1 h2 h3
    obtain ⟨w1, l1, ev1, _, rfl⟩ := predict_ok env _ _ h1
    have hf : s2.is_interacting = s.is_interacting := by
      rcases feed_cases env p _ _ h2 with ⟨_, h⟩ | ⟨_, h⟩
      · obtain ⟨_, _, _, _, _, rfl⟩ := sample_next_ok env p _ _ h; rfl
      · obtain ⟨_, _, _, _, _, rfl⟩ := drain_ok _ _ _ _ h; rfl
    rcases interact_ok env p _ _ h3 with rfl | ⟨_, _, hd, _⟩
    · left; rw [(display_fields s2).2.2.2.2.2.2.1, hf]
    · right; exact hd

/-- C7, at a concrete input: signal 15 leaves a set flag set. -/
theorem sigint_handler_spec_witness :
    (15 : Int) ≠ SIGINT ∧ sigint_handler 15 true = SigResult.resumed true :=
  ⟨by decide, sigint_handler_spec.2.2.2.1 15 true (by decide)⟩

set_option maxRecDepth 100000 in
/-- C10, at the failing input: a line of 255 bytes `a` followed by a newline
gives `n_read = 255` on the final-line branch, whose second store
`buf[n_read+1] = 0` is at index 256, outside the 256-byte buffer. -/
theorem read_user_input_overflow :
    (scan_line (List.replicate 255 97 ++ [NL])).n_read = 255 ∧
    is_continuation (scan_line (List.replicate 255 97 ++ [NL])) = false ∧
    terminate_line (scan_line (List.replicate 255 97 ++ [NL]))
      = Except.error (Fault.buf_overflow 256) ∧
    read_user_input byte_tokenize (List.replicate 255 97 ++ [NL]) []
      = Except.error (Fault.buf_overflow 256) := by
  refine ⟨?_, ?_, ?_, ?_⟩ <;> rfl

/-- C6: when `read_user_input` returns, the queue it leaves is the previous
queue followed by the `k` tokens it appended and its result is `k`; the
interactive step of the loop lowers `remaining_tokens` by exactly that `k`;
on input whose lines are shorter than 255 bytes `read_user_input` does
return; and it never stops for want of steps in the embedding. -/
theorem read_user_input_accounting :
    (∀ (tokenize : List Nat → Bool → List Token) (stdin : List Nat) (q : List Token)
        (r : ReadResult), read_user_input tokenize stdin q = Except.ok r →
      ∃ added : List Token, r.embd_inp = q ++ added ∧
        r.total_tokens_read = (added.length : Int)) ∧
    (∀ {σ : Type} (env : Env σ) (p : Params) (s s' : State σ),
      interact env p s = Except.ok s' →
      ∃ added : List Token, s'.embd_inp = s.embd_inp ++ added ∧
        s'.remaining_tokens = s.remaining_tokens - (added.length : Int)) ∧
    (∀ (tokenize : List Nat → Bool → List Token) (stdin : List Nat) (q : List Token),
      short_lines stdin → ∃ r, read_user_input tokenize stdin q = Except.ok r) ∧
    (∀ (tokenize : List Nat → Bool → List Token) (stdin : List Nat) (q : List Token),
      read_user_input tokenize stdin q ≠ Except.error Fault.out_of_fuel) := by
  refine ⟨?_, ?_, ?_, ?_⟩
  · intro tokenize stdin q r h
    obtain ⟨added, h1, h2⟩ := read_lines_ok _ _ _ _ _ _ h
    exact ⟨added, h1, by simpa using h2⟩
  · intro σ env p s s' h
    exact (interact_measure env p s s' h).2.2.2.2
  · intro tokenize stdin q h
    exact read_lines_total tokenize _ stdin q 0 (Nat.lt_succ_self _) h
  · intro tokenize stdin q
    exact read_lines_fuel tokenize _ stdin q 0 (Nat.lt_succ_self _)

set_option maxRecDepth 100000 in
/-- C6, at a concrete input: reading the line `hi` onto the queue `[1, 97]`
returns 3 and leaves the queue `[1, 97, 104, 105, 10]`. -/
theorem read_user_input_accounting_witness :
    read_user_input byte_tokenize [104, 105, NL] [1, 97]
      = Except.ok { total_tokens_read := 3, embd_inp := [1, 97, 104, 105, 10], stdin := [] } ∧
    ∃ added : List Token, [1, 97, 104, 105, 10] = [1, 97] ++ added ∧
      (3 : Int) = (added.length : Int) :=
  ⟨rfl, read_user_input_accounting.1 byte_tokenize [104, 105, NL] [1, 97]
    { total_tokens_read := 3, embd_inp := [1, 97, 104, 105, 10], stdin := [] } rfl⟩

/-- C2: with a context size `n_ctx ≥ 0`, at every point of every execution
(loop head; after the evaluator step, where `n_past += embd.size()` and
`embd.clear()` of lines 214-215 form one update; at every round of the
forwarding loop; after sampling or forwarding; after printing; after the
interactive check) and in the state in which `run_model` leaves its loop,
`0 ≤ input_consumed ≤ |embd_inp|`, `0 ≤ n_past` and `n_past + |embd| ≤ n_ctx`;
the budget starts at `min(n_predict, n_ctx - |prompt|)`. -/
theorem run_model_bounds {σ : Type} (env : Env σ) (p : Params) (w : σ) (stdin : List Nat)
    (hctx : 0 ≤ p.n_ctx) (pc : Pc) (s : State σ) (h : Reach env p w stdin pc s) :
    Bounds p s ∧
    (∀ s', (run_model env p w stdin).state? = some s' → Bounds p s') ∧
    (∀ s0, run_model_init env p w stdin = Except.ok s0 →
      s0.remaining_tokens =
        min p.n_predict (p.n_ctx - ((env.llama_tokenize p.prompt true).length : Int))) := by
  refine ⟨(budget_step env p w stdin hctx pc s h).1, ?_, ?_⟩
  · intro s' hs
    unfold run_model at hs
    cases hi : run_model_init env p w stdin with
    | error e => simp [hi, Outcome.state?] at hs
    | ok s0 =>
      simp only [hi] at hs
      obtain ⟨pc', hr⟩ := run_loop_reach env p w stdin _ s0 (Reach.init hi) s' hs
      exact (budget_step env p w stdin hctx pc' s' hr).1
  · intro s0 h0
    unfold run_model_init at h0
    dsimp only at h0
    split at h0
    · cases h0
    · cases h0; rfl

/-- C2, at a concrete input: the state after the prompt `a` has been
forwarded in the first iteration. -/
theorem run_model_bounds_witness :
    (0 : Int) ≤ base_params.n_ctx ∧
    Reach flat_env base_params () [] Pc.fed base_state2 ∧
    Bounds base_params base_state2 :=
  have hr : Reach flat_env base_params () [] Pc.fed base_state2 :=
    Reach.feed (s := base_state1)
      (Reach.predict (s := base_state0) (Reach.init rfl) (by decide) rfl) rfl
  ⟨by decide, hr, (run_model_bounds flat_env base_params () [] (by decide) Pc.fed _ hr).1⟩

/-- C3, at the failing input: with `repeat_last_n = 0` the window is created
empty and the first push, in the iteration that forwards the prompt, erases
from the empty vector; the run stops there instead of keeping an empty
window. -/
theorem empty_window_push_faults :
    (∀ id : Token, window_push [] id = Except.error (Stop.fault Fault.erase_empty)) ∧
    (run_model flat_env { base_params with repeat_last_n := 0 } () []).why?
      = some (Stop.fault Fault.erase_empty) := by
  constructor
  · intro id; rfl
  · rfl

/-- C4, at the failing input: with `ignore_eos` set and every logit equal to
-1, line 226 raises the logit of token 2 to 0, the greedy sampler returns
token 2 in the second iteration, and the run ends at end of text with EOS as
its one sampled token. -/
theorem ignore_eos_samples_eos :
    ignore_eos_params.ignore_eos = true ∧
    run_model_init flat_env ignore_eos_params () [] = Except.ok base_state0 ∧
    loop_body flat_env ignore_eos_params base_state0 = Except.ok (false, base_state3) ∧
    loop_body flat_env ignore_eos_params base_state3 = Except.ok (true, ignore_eos_final) ∧
    run_model flat_env ignore_eos_params () [] = Outcome.finished ignore_eos_final ∧
    ignore_eos_final.events =
      [Event.fed [0, 1, 2, 3], Event.fed [1, 97], Event.sampled EOS_TOKEN_ID] := by
  have h0 : run_model_init flat_env ignore_eos_params () [] = Except.ok base_state0 := rfl
  have h1 : loop_body flat_env ignore_eos_params base_state0
      = Except.ok (false, base_state3) := rfl
  have h2 : loop_body flat_env ignore_eos_params base_state3
      = Except.ok (true, ignore_eos_final) := rfl
  refine ⟨rfl, h0, h1, h2, ?_, rfl⟩
  rw [run_model_of_init _ _ _ _ _ h0]
  have hb : iteration_bound base_state0 = 1 + 1 + 1 := rfl
  rw [hb, run_loop_continue _ _ _ _ _ (by decide) h1]
  exact run_loop_break _ _ _ _ _ (by decide) h2

/-- C5, at the failing input: in interactive mode with `interactive_start`
and no reverse prompt, the first iteration ends with the queue used up and
`is_interacting` set, yet standard input is not read and the queue is not
extended; the next iteration samples a token instead, and the run leaves its
loop with the flag still set and the input unread. -/
theorem interactive_start_never_splices :
    interactive_params.interactive = true ∧
    run_model_init flat_env interactive_params () [104, 105, NL]
      = Except.ok interactive_state0 ∧
    loop_body flat_env interactive_params interactive_state0
      = Except.ok (false, interactive_state1) ∧
    interactive_state1.is_interacting = true ∧
    size_le_int interactive_state1.embd_inp.length interactive_state1.input_consumed = true ∧
    interactive_state1.stdin = [104, 105, NL] ∧
    interactive_state1.embd_inp = interactive_state0.embd_inp ∧
    run_model flat_env interactive_params () [104, 105, NL]
      = Outcome.finished interactive_state2 ∧
    interactive_state2.is_interacting = true ∧
    interactive_state2.stdin = [104, 105, NL] := by
  have h0 : run_model_init flat_env interactive_params () [104, 105, NL]
      = Except.ok interactive_state0 := rfl
  have h1 : loop_body flat_env interactive_params interactive_state0
      = Except.ok (false, interactive_state1) := rfl
  have h2 : loop_body flat_env interactive_params interactive_state1
      = Except.ok (false, interactive_state2) := rfl
  refine ⟨rfl, h0, h1, rfl, rfl, rfl, rfl, ?_, rfl, rfl⟩
  rw [run_model_of_init _ _ _ _ _ h0]
  have hb : iteration_bound interactive_state0 = 2 + 1 := rfl
  rw [hb, run_loop_continue _ _ _ _ _ (by decide) h1,
    run_loop_continue _ _ _ _ _ (by decide) h2]
  exact run_loop_done _ _ _ _ (by decide)

end LlamaMain
